import Mathlib

/-!
Shallow embedding of the task-management CRUD service in `src/main.py`:
a FastAPI application over two SQLAlchemy tables, `users` and `tasks`.
The relational store is modelled as a pair of lists kept in insertion
order together with the auto-increment counters of the two primary keys;
timestamps are naturals (`datetime.utcnow` becomes an explicit `now`
argument); each endpoint becomes a pure function returning
`Except ApiError _`, where raising `HTTPException` corresponds to
returning `.error` and leaves the store untouched (a request that fails
never commits).
-/

namespace TaskMgmt

/-- A row of the `users` table (model `User`, main.py lines 26-37).
`created_at` and `is_active` carry the column defaults
`datetime.utcnow` and `True`. -/
structure User where
  id : Nat
  username : String
  email : String
  full_name : String
  created_at : Nat
  is_active : Bool
deriving Repr, DecidableEq

/-- A row of the `tasks` table (model `Task`, main.py lines 39-53).
`status`, `priority`, `description` and `due_date` are nullable columns,
hence `Option`; `owner_id` is the foreign key into `users.id`. -/
structure Task where
  id : Nat
  title : String
  description : Option String
  status : Option String
  priority : Option String
  created_at : Nat
  updated_at : Nat
  due_date : Option Nat
  owner_id : Nat
deriving Repr, DecidableEq

/-- Pydantic schema `UserCreate` (= `UserBase`): username, email, full_name. -/
structure UserCreate where
  username : String
  email : String
  full_name : String
deriving Repr, DecidableEq

/-- Pydantic schema `UserUpdate` (main.py lines 67-71): every field
optional; `none` models a field absent from the request
(`dict(exclude_unset=True)` drops it). -/
structure UserUpdate where
  username : Option String := none
  email : Option String := none
  full_name : Option String := none
  is_active : Option Bool := none
deriving Repr, DecidableEq

/-- Pydantic schema `TaskCreate` (main.py lines 81-89): the structure
defaults mirror the Pydantic field defaults, `status = "pending"`,
`priority = "medium"`, applied when the field is omitted from the body. -/
structure TaskCreate where
  title : String
  description : Option String := none
  status : Option String := some "pending"
  priority : Option String := some "medium"
  due_date : Option Nat := none
  owner_id : Nat
deriving Repr, DecidableEq

/-- Pydantic schema `TaskUpdate` (main.py lines 91-96): every field
optional; `none` models a field absent from the request. -/
structure TaskUpdate where
  title : Option String := none
  description : Option String := none
  status : Option String := none
  priority : Option String := none
  due_date : Option Nat := none
deriving Repr, DecidableEq

/-- The `/stats` response shape (main.py lines 283-288). -/
structure Stats where
  total_users : Nat
  total_tasks : Nat
  pending_tasks : Nat
  completed_tasks : Nat
deriving Repr, DecidableEq

/-- The relational store: both tables in insertion order plus the
auto-increment counters backing the two integer primary keys. -/
structure DB where
  users : List User
  tasks : List Task
  next_user_id : Nat
  next_task_id : Nat
deriving Repr, DecidableEq

/-- The freshly created store (`Base.metadata.create_all`): both tables
empty, MySQL auto-increment starting at 1. -/
def DB.empty : DB :=
  { users := [], tasks := [], next_user_id := 1, next_task_id := 1 }

/-- An `HTTPException` raised by an endpoint: 404 "not found" or
400 "conflict", each carrying its human-readable detail message. -/
inductive ApiError where
  | notFound (detail : String)
  | conflict (detail : String)
deriving Repr, DecidableEq

/-- The HTTP status code of an error (main.py passes `status_code=404`
for not-found and `status_code=400` for the duplicate-user conflict). -/
def ApiError.statusCode : ApiError → Nat
  | .notFound _ => 404
  | .conflict _ => 400

/-- `POST /users/` (`create_user`, main.py lines 145-158): reject with a
400 conflict when some existing row matches on username OR email
(`(User.username == u) | (User.email == e)` then `.first()`); otherwise
insert a row built from the body with the column defaults
`created_at = utcnow`, `is_active = True`, id from the auto-increment. -/
def create_user (u : UserCreate) (now : Nat) (db : DB) :
    Except ApiError (User × DB) :=
  match db.users.find? (fun x => x.username == u.username || x.email == u.email) with
  | some _ => .error (.conflict "Username or email already registered")
  | none =>
    let nu : User :=
      { id := db.next_user_id, username := u.username, email := u.email,
        full_name := u.full_name, created_at := now, is_active := true }
    .ok (nu, { db with users := db.users ++ [nu],
                       next_user_id := db.next_user_id + 1 })

/-- `GET /users/` (`read_users`, main.py lines 160-163):
`query(User).offset(skip).limit(limit).all()` over the stored rows. -/
def read_users (skip limit : Nat) (db : DB) : List User :=
  (db.users.drop skip).take limit

/-- `GET /users/{id}` (`read_user`, main.py lines 165-170). -/
def read_user (user_id : Nat) (db : DB) : Except ApiError User :=
  match db.users.find? (fun x => x.id == user_id) with
  | none => .error (.notFound "User not found")
  | some u => .ok u

/-- The `setattr` loop of `update_user` (main.py lines 178-180):
each field present in the request overwrites the row's attribute,
each absent field is left untouched. -/
def applyUserUpdate (upd : UserUpdate) (u : User) : User :=
  { u with
    username := upd.username.getD u.username,
    email := upd.email.getD u.email,
    full_name := upd.full_name.getD u.full_name,
    is_active := upd.is_active.getD u.is_active }

/-- `PUT /users/{id}` (`update_user`, main.py lines 172-184): 404 when
the id matches no row; otherwise apply the present fields in place and
commit. No uniqueness re-check is performed. -/
def update_user (user_id : Nat) (upd : UserUpdate) (db : DB) :
    Except ApiError (User × DB) :=
  match db.users.find? (fun x => x.id == user_id) with
  | none => .error (.notFound "User not found")
  | some u =>
    let u' := applyUserUpdate upd u
    .ok (u', { db with
               users := db.users.map (fun x => if x.id == user_id then u' else x) })

/-- `DELETE /users/{id}` (`delete_user`, main.py lines 186-197): 404 when
absent; otherwise `query(Task).filter(owner_id == id).delete()` followed by
`db.delete(db_user)` committed together, one new store. -/
def delete_user (user_id : Nat) (db : DB) : Except ApiError DB :=
  match db.users.find? (fun x => x.id == user_id) with
  | none => .error (.notFound "User not found")
  | some _ =>
    .ok { db with
          tasks := db.tasks.filter (fun t => ! (t.owner_id == user_id)),
          users := db.users.filter (fun x => ! (x.id == user_id)) }

/-- `POST /tasks/` (`create_task`, main.py lines 200-211): 404 when
`owner_id` matches no user; otherwise insert a row from the body
(`Task(**task.dict())`), with `created_at` and `updated_at` from the
column default `datetime.utcnow` and id from the auto-increment. -/
def create_task (tc : TaskCreate) (now : Nat) (db : DB) :
    Except ApiError (Task × DB) :=
  match db.users.find? (fun x => x.id == tc.owner_id) with
  | none => .error (.notFound "User not found")
  | some _ =>
    let nt : Task :=
      { id := db.next_task_id, title := tc.title, description := tc.description,
        status := tc.status, priority := tc.priority, created_at := now,
        updated_at := now, due_date := tc.due_date, owner_id := tc.owner_id }
    .ok (nt, { db with tasks := db.tasks ++ [nt],
                       next_task_id := db.next_task_id + 1 })

/-- `GET /tasks/` (`read_tasks`, main.py lines 213-232): each filter is
guarded by Python truthiness (`if status:` / `if priority:` /
`if owner_id:`), so an absent parameter, an empty string, or a zero
`owner_id` adds no `filter` clause; then `offset(skip).limit(limit)`. -/
def read_tasks (skip limit : Nat) (status priority : Option String)
    (owner_id : Option Nat) (db : DB) : List Task :=
  let q := db.tasks
  let q := match status with
    | some s => if s == "" then q else q.filter (fun t => t.status == some s)
    | none => q
  let q := match priority with
    | some p => if p == "" then q else q.filter (fun t => t.priority == some p)
    | none => q
  let q := match owner_id with
    | some o => if o == 0 then q else q.filter (fun t => t.owner_id == o)
    | none => q
  (q.drop skip).take limit

/-- `GET /tasks/{id}` (`read_task`, main.py lines 234-239). -/
def read_task (task_id : Nat) (db : DB) : Except ApiError Task :=
  match db.tasks.find? (fun t => t.id == task_id) with
  | none => .error (.notFound "Task not found")
  | some t => .ok t

/-- The `setattr` loop of `update_task` (main.py lines 247-249): each
field present in the request overwrites the row's attribute. -/
def applyTaskUpdate (upd : TaskUpdate) (t : Task) : Task :=
  { t with
    title := upd.title.getD t.title,
    description := (upd.description.map some).getD t.description,
    status := (upd.status.map some).getD t.status,
    priority := (upd.priority.map some).getD t.priority,
    due_date := (upd.due_date.map some).getD t.due_date }

/-- `PUT /tasks/{id}` (`update_task`, main.py lines 241-254): 404 when
absent; otherwise apply the present fields, then unconditionally
`db_task.updated_at = datetime.utcnow()` before the commit. -/
def update_task (task_id : Nat) (upd : TaskUpdate) (now : Nat) (db : DB) :
    Except ApiError (Task × DB) :=
  match db.tasks.find? (fun t => t.id == task_id) with
  | none => .error (.notFound "Task not found")
  | some t =>
    let t' := { applyTaskUpdate upd t with updated_at := now }
    .ok (t', { db with
               tasks := db.tasks.map (fun x => if x.id == task_id then t' else x) })

/-- `DELETE /tasks/{id}` (`delete_task`, main.py lines 256-264). -/
def delete_task (task_id : Nat) (db : DB) : Except ApiError DB :=
  match db.tasks.find? (fun t => t.id == task_id) with
  | none => .error (.notFound "Task not found")
  | some _ =>
    .ok { db with tasks := db.tasks.filter (fun t => ! (t.id == task_id)) }

/-- `GET /users/{id}/tasks` (`read_user_tasks`, main.py lines 267-274). -/
def read_user_tasks (user_id : Nat) (db : DB) : Except ApiError (List Task) :=
  match db.users.find? (fun x => x.id == user_id) with
  | none => .error (.notFound "User not found")
  | some _ => .ok (db.tasks.filter (fun t => t.owner_id == user_id))

/-- `GET /stats` (`get_stats`, main.py lines 276-288): four
`query(...).count()` calls over the current store. -/
def get_stats (db : DB) : Stats :=
  { total_users := db.users.length,
    total_tasks := db.tasks.length,
    pending_tasks := (db.tasks.filter (fun t => t.status == some "pending")).length,
    completed_tasks := (db.tasks.filter (fun t => t.status == some "completed")).length }

/-- One mutating request, for stating store invariants over every
reachable state. -/
inductive Op where
  | createUser (u : UserCreate)
  | updateUser (id : Nat) (upd : UserUpdate)
  | deleteUser (id : Nat)
  | createTask (tc : TaskCreate)
  | updateTask (id : Nat) (upd : TaskUpdate)
  | deleteTask (id : Nat)
deriving Repr, DecidableEq

/-- The store after one request at wall-clock time `now`: a request that
raises an `HTTPException` commits nothing, so the store is unchanged. -/
def applyOp (op : Op) (now : Nat) (db : DB) : DB :=
  match op with
  | .createUser u =>
    match create_user u now db with | .ok (_, db') => db' | .error _ => db
  | .updateUser id upd =>
    match update_user id upd db with | .ok (_, db') => db' | .error _ => db
  | .deleteUser id =>
    match delete_user id db with | .ok db' => db' | .error _ => db
  | .createTask tc =>
    match create_task tc now db with | .ok (_, db') => db' | .error _ => db
  | .updateTask id upd =>
    match update_task id upd now db with | .ok (_, db') => db' | .error _ => db
  | .deleteTask id =>
    match delete_task id db with | .ok db' => db' | .error _ => db

/-- The wall clock never runs backwards: every timestamp already stored
was taken at or before the current request's `datetime.utcnow()`. -/
def ClockOK (db : DB) (now : Nat) : Prop :=
  ∀ t ∈ db.tasks, t.created_at ≤ now ∧ t.updated_at ≤ now

instance (db : DB) (now : Nat) : Decidable (ClockOK db now) := by
  unfold ClockOK; infer_instance

/-- The store states reachable from the fresh store by requests issued
at nondecreasing wall-clock times. -/
inductive Reachable : DB → Prop
  | init : Reachable DB.empty
  | step {db : DB} (op : Op) (now : Nat) :
      Reachable db → ClockOK db now → Reachable (applyOp op now db)

/-- The status clause actually enforced by `read_tasks`: a supplied value
filters only when it is truthy in Python (`if status:`), so a supplied empty
string restricts nothing. -/
def statusClause (status : Option String) (t : Task) : Bool :=
  match status with
  | some s => if s == "" then true else t.status == some s
  | none => true

/-- The priority clause actually enforced by `read_tasks` (`if priority:`). -/
def priorityClause (priority : Option String) (t : Task) : Bool :=
  match priority with
  | some p => if p == "" then true else t.priority == some p
  | none => true

/-- The owner clause actually enforced by `read_tasks` (`if owner_id:`), so a
supplied `owner_id = 0` restricts nothing. -/
def ownerClause (owner_id : Option Nat) (t : Task) : Bool :=
  match owner_id with
  | some o => if o == 0 then true else t.owner_id == o
  | none => true

/-- The conjunction of the three list filters of `GET /tasks/` (the order of
the conjuncts is immaterial). -/
def listFilter (status priority : Option String) (owner_id : Option Nat) (t : Task) : Bool :=
  ownerClause owner_id t && (priorityClause priority t && statusClause status t)

/-! Concrete rows and stores used by the witness and counterexample
theorems. -/

/-- A stored user row, id 1. -/
def wAlice : User :=
  { id := 1, username := "alice", email := "alice@x.com", full_name := "Alice A",
    created_at := 3, is_active := true }

/-- A second stored user row, id 2. -/
def wBob : User :=
  { id := 2, username := "bob", email := "bob@x.com", full_name := "Bob B",
    created_at := 4, is_active := true }

/-- A task owned by user 1, still pending. -/
def wTask1 : Task :=
  { id := 1, title := "Write spec", description := none, status := some "pending",
    priority := some "medium", created_at := 5, updated_at := 5, due_date := none,
    owner_id := 1 }

/-- A task owned by user 2, completed. -/
def wTask2 : Task :=
  { id := 2, title := "Review", description := none, status := some "completed",
    priority := some "high", created_at := 6, updated_at := 6, due_date := none,
    owner_id := 2 }

/-- A small store with two users and two tasks, primary keys distinct. -/
def wDB : DB :=
  { users := [wAlice, wBob], tasks := [wTask1, wTask2],
    next_user_id := 3, next_task_id := 3 }

/-- Request creating user "alice". -/
def opUser1 : Op :=
  .createUser { username := "alice", email := "alice@x.com", full_name := "Alice A" }

/-- Request creating a task for user 1 with all optional fields omitted. -/
def opTask1 : Op := .createTask { title := "Write spec", owner_id := 1 }

/-- Request creating user "bob". -/
def opUser2 : Op :=
  .createUser { username := "bob", email := "bob@x.com", full_name := "Bob B" }

/-- The store after creating "alice" at time 3. -/
def dbStep1 : DB := applyOp opUser1 3 DB.empty

/-- The store after additionally creating a task for user 1 at time 5. -/
def dbStep2 : DB := applyOp opTask1 5 dbStep1

/-- The store after additionally creating "bob" at time 7. -/
def dbStep3 : DB := applyOp opUser2 7 dbStep2

/-- The task row stored in `dbStep2`. -/
def taskStep2 : Task :=
  { id := 1, title := "Write spec", description := none, status := some "pending",
    priority := some "medium", created_at := 5, updated_at := 5, due_date := none,
    owner_id := 1 }

/-! Helper lemmas shared by the claim theorems. -/

/-- If nothing in the list satisfies the predicate, `find?` returns `none`. -/
theorem find?_eq_none_of_forall {α : Type} {p : α → Bool} {l : List α}
    (h : ∀ x ∈ l, ¬ p x = true) : l.find? p = none :=
  List.find?_eq_none.mpr h

/-- If something in the list satisfies the predicate, `find?` returns some hit. -/
theorem find?_eq_some_of_exists {α : Type} {p : α → Bool} {l : List α}
    (h : ∃ x ∈ l, p x = true) : ∃ y, l.find? p = some y := by
  have hs : (l.find? p).isSome := List.find?_isSome.mpr h
  exact Option.isSome_iff_exists.mp hs

/-- Replacing, under a predicate, every element by `a` is the identity when
every element satisfying the predicate already equals `a`. -/
theorem map_ite_eq_self {α : Type} (l : List α) (p : α → Bool) (a : α)
    (h : ∀ x ∈ l, p x = true → x = a) :
    l.map (fun x => if p x then a else x) = l := by
  induction l with
  | nil => rfl
  | cons y ys ih =>
    have hy : (if p y then a else y) = y := by
      by_cases hp : p y = true
      · simp [hp, ← h y (by simp) hp]
      · simp [hp]
    have hys := ih (fun x hx hpx => h x (List.mem_cons_of_mem y hx) hpx)
    simp only [List.map_cons, hy, hys]

/-- In a list whose keys are nodup, two members with the same key are equal. -/
theorem eq_of_nodup_key {α β : Type} (key : α → β) {l : List α}
    (hnd : (l.map key).Nodup) {x y : α}
    (hx : x ∈ l) (hy : y ∈ l) (hk : key x = key y) : x = y :=
  List.inj_on_of_nodup_map hnd hx hy hk

/-- Claim C2: for every state and every input, if some existing User already
has the requested username or email, CreateUser fails with the Conflict error
(HTTP status 400) and, the call returning no new store, the stored state is
unchanged; otherwise it persists exactly one new User, appended to the table,
with the generated auto-increment id, `created_at` set to the current
timestamp and `is_active = true`. -/
theorem create_user_conflict_or_insert (db : DB) (u : UserCreate) (now : Nat) :
    ((∃ x ∈ db.users, x.username = u.username ∨ x.email = u.email) →
      create_user u now db = .error (.conflict "Username or email already registered") ∧
      (ApiError.conflict "Username or email already registered").statusCode = 400) ∧
    ((∀ x ∈ db.users, x.username ≠ u.username ∧ x.email ≠ u.email) →
      create_user u now db =
        .ok ({ id := db.next_user_id, username := u.username, email := u.email,
               full_name := u.full_name, created_at := now, is_active := true },
             { db with
               users := db.users ++
                 [{ id := db.next_user_id, username := u.username, email := u.email,
                    full_name := u.full_name, created_at := now, is_active := true }],
               next_user_id := db.next_user_id + 1 })) := by
  constructor
  · rintro ⟨x, hx, hmatch⟩
    obtain ⟨y, hy⟩ := find?_eq_some_of_exists
      (p := fun x => x.username == u.username || x.email == u.email)
      ⟨x, hx, by rcases hmatch with h | h <;> simp [h]⟩
    exact ⟨by simp [create_user, hy], rfl⟩
  · intro hall
    have hf : db.users.find?
        (fun x => x.username == u.username || x.email == u.email) = none := by
      refine find?_eq_none_of_forall fun x hx => ?_
      have := hall x hx
      simp only [Bool.or_eq_true, beq_iff_eq]
      tauto
    simp [create_user, hf]

/-- Claim C4: for every state and CreateTask input, if no User has the given
owner_id the call fails with NotFound and persists nothing (no new store is
produced); otherwise exactly one new Task with the given fields is appended,
and the schema defaults make an omitted status "pending" and an omitted
priority "medium". -/
theorem create_task_owner_check (db : DB) (tc : TaskCreate) (now : Nat) :
    ((∀ x ∈ db.users, x.id ≠ tc.owner_id) →
      create_task tc now db = .error (.notFound "User not found")) ∧
    ((∃ x ∈ db.users, x.id = tc.owner_id) →
      create_task tc now db =
        .ok ({ id := db.next_task_id, title := tc.title, description := tc.description,
               status := tc.status, priority := tc.priority, created_at := now,
               updated_at := now, due_date := tc.due_date, owner_id := tc.owner_id },
             { db with
               tasks := db.tasks ++
                 [{ id := db.next_task_id, title := tc.title,
                    description := tc.description, status := tc.status,
                    priority := tc.priority, created_at := now, updated_at := now,
                    due_date := tc.due_date, owner_id := tc.owner_id }],
               next_task_id := db.next_task_id + 1 })) ∧
    ({ title := tc.title, owner_id := tc.owner_id : TaskCreate }.status = some "pending" ∧
     { title := tc.title, owner_id := tc.owner_id : TaskCreate }.priority = some "medium") := by
  refine ⟨?_, ?_, rfl, rfl⟩
  · intro hall
    have hf : db.users.find? (fun x => x.id == tc.owner_id) = none := by
      refine find?_eq_none_of_forall fun x hx => ?_
      simpa using hall x hx
    simp [create_task, hf]
  · rintro ⟨x, hx, hid⟩
    obtain ⟨y, hy⟩ := find?_eq_some_of_exists
      (p := fun x => x.id == tc.owner_id) ⟨x, hx, by simp [hid]⟩
    simp [create_task, hy]

/-- Claim C7: UpdateUser performs no uniqueness re-check: on an existing id
it succeeds for every partial-update payload (even one whose username or
email collides with a different stored User), it fails with NotFound exactly
when the id is absent, and NotFound is the only error it ever returns. -/
theorem update_user_never_conflict (db : DB) (uid : Nat) (upd : UserUpdate) :
    ((∃ x ∈ db.users, x.id = uid) →
      ∃ u' db', update_user uid upd db = .ok (u', db')) ∧
    ((∀ x ∈ db.users, x.id ≠ uid) →
      update_user uid upd db = .error (.notFound "User not found")) ∧
    (∀ e, update_user uid upd db = .error e → e = .notFound "User not found") := by
  refine ⟨?_, ?_, ?_⟩
  · rintro ⟨x, hx, hid⟩
    obtain ⟨y, hy⟩ := find?_eq_some_of_exists
      (p := fun x => x.id == uid) ⟨x, hx, by simp [hid]⟩
    refine ⟨applyUserUpdate upd y,
      { db with
        users := db.users.map (fun x => if x.id == uid then applyUserUpdate upd y else x) },
      ?_⟩
    simp [update_user, hy]
  · intro hall
    have hf : db.users.find? (fun x => x.id == uid) = none := by
      refine find?_eq_none_of_forall fun x hx => ?_
      simpa using hall x hx
    simp [update_user, hf]
  · intro e he
    cases hf : db.users.find? (fun x => x.id == uid) with
    | none => simpa [update_user, hf] using he.symm
    | some u => simp [update_user, hf] at he

/-- Claim C9: GetStats returns exactly four counts over the current store:
the number of stored Users, the number of stored Tasks, the number of Tasks
whose status equals "pending", and the number whose status equals
"completed". -/
theorem get_stats_counts (db : DB) :
    (get_stats db).total_users = db.users.length ∧
    (get_stats db).total_tasks = db.tasks.length ∧
    (get_stats db).pending_tasks = db.tasks.countP (fun t => t.status == some "pending") ∧
    (get_stats db).completed_tasks = db.tasks.countP (fun t => t.status == some "completed") := by
  refine ⟨rfl, rfl, ?_, ?_⟩ <;> simp [get_stats, List.countP_eq_length_filter]

/-- The empty partial update changes no attribute of the user row. -/
theorem applyUserUpdate_empty (u : User) : applyUserUpdate {} u = u := rfl

/-- The empty partial update changes no attribute of the task row. -/
theorem applyTaskUpdate_empty (t : Task) : applyTaskUpdate {} t = t := rfl

/-- Claim C1: DeleteUser on an absent id fails with NotFound and changes
nothing (no new store is produced); on an existing id it returns, in one
step, the store with every Task owned by that user and the User itself
removed, and in that store GetUser on the id and GetTask on any formerly
owned task id both fail with NotFound. The hypothesis is the primary-key
invariant of the `tasks` table: stored task ids are distinct. -/
theorem delete_user_cascade (db : DB) (uid : Nat)
    (htid : (db.tasks.map Task.id).Nodup) :
    ((∀ x ∈ db.users, x.id ≠ uid) →
      delete_user uid db = .error (.notFound "User not found")) ∧
    ((∃ x ∈ db.users, x.id = uid) →
      ∃ db', delete_user uid db = .ok db' ∧
        db'.users = db.users.filter (fun x => ! (x.id == uid)) ∧
        db'.tasks = db.tasks.filter (fun t => ! (t.owner_id == uid)) ∧
        read_user uid db' = .error (.notFound "User not found") ∧
        ∀ t ∈ db.tasks, t.owner_id = uid →
          read_task t.id db' = .error (.notFound "Task not found")) := by
  constructor
  · intro hall
    have hf : db.users.find? (fun x => x.id == uid) = none := by
      refine find?_eq_none_of_forall fun x hx => ?_
      simpa using hall x hx
    simp [delete_user, hf]
  · rintro ⟨x, hx, hid⟩
    obtain ⟨y, hy⟩ := find?_eq_some_of_exists
      (p := fun z => z.id == uid) ⟨x, hx, by simp [hid]⟩
    refine ⟨{ db with
        tasks := db.tasks.filter (fun t => ! (t.owner_id == uid)),
        users := db.users.filter (fun z => ! (z.id == uid)) },
      by simp [delete_user, hy], rfl, rfl, ?_, ?_⟩
    · have hf2 : (db.users.filter (fun z => ! (z.id == uid))).find?
          (fun z => z.id == uid) = none := by
        refine find?_eq_none_of_forall fun z hz => ?_
        have hzp := (List.mem_filter.mp hz).2
        simpa using hzp
      simp [read_user, hf2]
    · intro t ht howner
      have hf3 : (db.tasks.filter (fun z => ! (z.owner_id == uid))).find?
          (fun z => z.id == t.id) = none := by
        refine find?_eq_none_of_forall fun z hz => ?_
        obtain ⟨hzmem, hzp⟩ := List.mem_filter.mp hz
        intro hzid
        have hzt : z = t :=
          eq_of_nodup_key Task.id htid hzmem ht (by simpa using hzid)
        rw [hzt] at hzp
        simp [howner] at hzp
      simp [read_task, hf3]

/-- Claim C3: for an existing User and Task, every partial update applies
exactly the fields present in the request and leaves each absent field at
its prior value; the empty update leaves the user row and the whole store
unchanged, and leaves every task field unchanged except `updated_at`, which
is set to the current time on every successful UpdateTask. The Nodup
hypotheses are the primary-key invariants of the two tables. -/
theorem update_partial_semantics (db : DB) (uid tid : Nat) (u : User) (t : Task) (now : Nat)
    (hu : db.users.find? (fun x => x.id == uid) = some u)
    (ht : db.tasks.find? (fun x => x.id == tid) = some t)
    (hndu : (db.users.map User.id).Nodup) :
    (∀ upd : UserUpdate, ∃ u' db',
      update_user uid upd db = .ok (u', db') ∧
      (upd.username = none → u'.username = u.username) ∧
      (∀ v, upd.username = some v → u'.username = v) ∧
      (upd.email = none → u'.email = u.email) ∧
      (∀ v, upd.email = some v → u'.email = v) ∧
      (upd.full_name = none → u'.full_name = u.full_name) ∧
      (∀ v, upd.full_name = some v → u'.full_name = v) ∧
      (upd.is_active = none → u'.is_active = u.is_active) ∧
      (∀ v, upd.is_active = some v → u'.is_active = v)) ∧
    update_user uid {} db = .ok (u, db) ∧
    (∀ upd : TaskUpdate, ∃ t' db',
      update_task tid upd now db = .ok (t', db') ∧
      (upd.title = none → t'.title = t.title) ∧
      (∀ v, upd.title = some v → t'.title = v) ∧
      (upd.description = none → t'.description = t.description) ∧
      (∀ v, upd.description = some v → t'.description = some v) ∧
      (upd.status = none → t'.status = t.status) ∧
      (∀ v, upd.status = some v → t'.status = some v) ∧
      (upd.priority = none → t'.priority = t.priority) ∧
      (∀ v, upd.priority = some v → t'.priority = some v) ∧
      (upd.due_date = none → t'.due_date = t.due_date) ∧
      (∀ v, upd.due_date = some v → t'.due_date = some v) ∧
      t'.updated_at = now) ∧
    update_task tid {} now db =
      .ok ({ t with updated_at := now },
           { db with tasks := db.tasks.map (fun x => if x.id == tid then { t with updated_at := now } else x) }) := by
  have humem : u ∈ db.users := List.mem_of_find?_eq_some hu
  have huid : u.id = uid := by simpa using List.find?_some hu
  refine ⟨?_, ?_, ?_, ?_⟩
  · intro upd
    refine ⟨applyUserUpdate upd u,
      { db with users := db.users.map (fun x => if x.id == uid then applyUserUpdate upd u else x) },
      by simp [update_user, hu], ?_, ?_, ?_, ?_, ?_, ?_, ?_, ?_⟩
    · intro h; simp [applyUserUpdate, h]
    · intro v h; simp [applyUserUpdate, h]
    · intro h; simp [applyUserUpdate, h]
    · intro v h; simp [applyUserUpdate, h]
    · intro h; simp [applyUserUpdate, h]
    · intro v h; simp [applyUserUpdate, h]
    · intro h; simp [applyUserUpdate, h]
    · intro v h; simp [applyUserUpdate, h]
  · have hself : db.users.map (fun x => if x.id == uid then u else x) = db.users := by
      refine map_ite_eq_self _ _ _ fun x hx hpx => ?_
      exact eq_of_nodup_key User.id hndu hx humem (by simpa [huid] using hpx)
    simp only [beq_iff_eq] at hself
    simp [update_user, hu, applyUserUpdate_empty, hself]
  · intro upd
    refine ⟨{ applyTaskUpdate upd t with updated_at := now },
      { db with tasks := db.tasks.map (fun x => if x.id == tid then { applyTaskUpdate upd t with updated_at := now } else x) },
      by simp [update_task, ht], ?_, ?_, ?_, ?_, ?_, ?_, ?_, ?_, ?_, ?_, rfl⟩
    · intro h; simp [applyTaskUpdate, h]
    · intro v h; simp [applyTaskUpdate, h]
    · intro h; simp [applyTaskUpdate, h]
    · intro v h; simp [applyTaskUpdate, h]
    · intro h; simp [applyTaskUpdate, h]
    · intro v h; simp [applyTaskUpdate, h]
    · intro h; simp [applyTaskUpdate, h]
    · intro v h; simp [applyTaskUpdate, h]
    · intro h; simp [applyTaskUpdate, h]
    · intro v h; simp [applyTaskUpdate, h]
  · simp [update_task, ht, applyTaskUpdate_empty]

/-- Claim C10: the update request schemas expose no id, created_at or
owner_id field, so every UpdateUser leaves the target User's id and
created_at unchanged (and leaves those projections of every stored row
unchanged), and every UpdateTask likewise preserves id, created_at and
owner_id. The Nodup hypotheses are the primary-key invariants. -/
theorem update_preserves_identity_fields (db : DB) (uid tid : Nat) (u : User) (t : Task)
    (uu : UserUpdate) (tu : TaskUpdate) (now : Nat)
    (hu : db.users.find? (fun x => x.id == uid) = some u)
    (ht : db.tasks.find? (fun x => x.id == tid) = some t)
    (hndu : (db.users.map User.id).Nodup)
    (hndt : (db.tasks.map Task.id).Nodup) :
    ∃ u' db1 t' db2,
      update_user uid uu db = .ok (u', db1) ∧
      u'.id = u.id ∧ u'.created_at = u.created_at ∧
      db1.users.map (fun x => (x.id, x.created_at)) =
        db.users.map (fun x => (x.id, x.created_at)) ∧
      update_task tid tu now db = .ok (t', db2) ∧
      t'.id = t.id ∧ t'.created_at = t.created_at ∧ t'.owner_id = t.owner_id ∧
      db2.tasks.map (fun x => (x.id, x.created_at, x.owner_id)) =
        db.tasks.map (fun x => (x.id, x.created_at, x.owner_id)) := by
  have humem : u ∈ db.users := List.mem_of_find?_eq_some hu
  have huid : u.id = uid := by simpa using List.find?_some hu
  have htmem : t ∈ db.tasks := List.mem_of_find?_eq_some ht
  have htid2 : t.id = tid := by simpa using List.find?_some ht
  refine ⟨applyUserUpdate uu u,
    { db with users := db.users.map (fun x => if x.id == uid then applyUserUpdate uu u else x) },
    { applyTaskUpdate tu t with updated_at := now },
    { db with tasks := db.tasks.map (fun x => if x.id == tid then { applyTaskUpdate tu t with updated_at := now } else x) },
    by simp [update_user, hu], rfl, rfl, ?_, by simp [update_task, ht], rfl, rfl, rfl, ?_⟩
  · rw [List.map_map]
    refine List.map_congr_left fun x hx => ?_
    by_cases hp : x.id = uid
    · have hxu : x = u := eq_of_nodup_key User.id hndu hx humem (by rw [hp, huid])
      simp [Function.comp, hp, hxu, huid, applyUserUpdate]
    · simp [Function.comp, hp]
  · rw [List.map_map]
    refine List.map_congr_left fun x hx => ?_
    by_cases hp : x.id = tid
    · have hxt : x = t := eq_of_nodup_key Task.id hndt hx htmem (by rw [hp, htid2])
      simp [Function.comp, hp, hxt, htid2, applyTaskUpdate]
    · simp [Function.comp, hp]

/-- Two chained list filters combine into one conjunctive filter, in
application order. -/
theorem filter_comp_two {α : Type} (l : List α) (f g : α → Bool) :
    (l.filter f).filter g = l.filter (fun a => f a && g a) := by
  induction l with
  | nil => rfl
  | cons a tl ih => cases hf : f a <;> cases hg : g a <;> simp [List.filter_cons, hf, hg, ih]

/-- Claim C5 as amended: ListTasks applies its three filters conjunctively,
but a filter is applied only when its supplied value is truthy in Python:
a present empty-string status or priority, or a present `owner_id = 0`, is
ignored exactly like an absent filter; each applied filter admits exactly
the Tasks whose field equals the supplied value, and unfiltered fields
impose no restriction. -/
theorem read_tasks_conjunctive (skip limit : Nat) (status priority : Option String)
    (owner_id : Option Nat) (db : DB) :
    read_tasks skip limit status priority owner_id db =
      ((db.tasks.filter (fun t => listFilter status priority owner_id t)).drop skip).take limit ∧
    (∀ t : Task, listFilter status priority owner_id t = true ↔
      ((∀ s, status = some s → ¬ s = "" → t.status = some s) ∧
       (∀ p, priority = some p → ¬ p = "" → t.priority = some p) ∧
       (∀ o, owner_id = some o → ¬ o = 0 → t.owner_id = o))) := by
  constructor
  · rcases status with _ | s <;> rcases priority with _ | p <;> rcases owner_id with _ | o
    · simp [read_tasks, listFilter, statusClause, priorityClause, ownerClause]
    · cases ho : o == 0 <;>
        simp [read_tasks, listFilter, statusClause, priorityClause, ownerClause,
          filter_comp_two, ho]
    · cases hp : p == "" <;>
        simp [read_tasks, listFilter, statusClause, priorityClause, ownerClause,
          filter_comp_two, hp]
    · cases hp : p == "" <;> cases ho : o == 0 <;>
        simp [read_tasks, listFilter, statusClause, priorityClause, ownerClause,
          filter_comp_two, hp, ho]
    · cases hs : s == "" <;>
        simp [read_tasks, listFilter, statusClause, priorityClause, ownerClause,
          filter_comp_two, hs]
    · cases hs : s == "" <;> cases ho : o == 0 <;>
        simp [read_tasks, listFilter, statusClause, priorityClause, ownerClause,
          filter_comp_two, hs, ho]
    · cases hs : s == "" <;> cases hp : p == "" <;>
        simp [read_tasks, listFilter, statusClause, priorityClause, ownerClause,
          filter_comp_two, hs, hp]
    · cases hs : s == "" <;> cases hp : p == "" <;> cases ho : o == 0 <;>
        simp [read_tasks, listFilter, statusClause, priorityClause, ownerClause,
          filter_comp_two, hs, hp, ho]
  · intro t
    rcases status with _ | s <;> rcases priority with _ | p <;> rcases owner_id with _ | o <;>
      simp [listFilter, statusClause, priorityClause, ownerClause,
        Bool.and_eq_true, beq_iff_eq] <;>
      tauto

/-- Claim C5, counterexample to the claim as stated: the status filter is
present (an empty string was supplied), yet ListTasks returns a task whose
status is not the supplied value — the code ignores a present-but-falsy
filter instead of matching against it. -/
theorem read_tasks_empty_filter_cex :
    read_tasks 0 100 (some "") none none wDB = [wTask1, wTask2] ∧
    ¬ wTask1.status = some "" := by
  exact ⟨rfl, by decide⟩

/-- One request preserves the per-task invariant `created_at ≤ updated_at`,
given that the wall clock is at or past every stored timestamp. -/
theorem timestamps_le_applyOp (db : DB) (op : Op) (now : Nat)
    (hc : ClockOK db now)
    (ih : ∀ t ∈ db.tasks, t.created_at ≤ t.updated_at) :
    ∀ t ∈ (applyOp op now db).tasks, t.created_at ≤ t.updated_at := by
  cases op with
  | createUser u =>
    cases hf : db.users.find? (fun x => x.username == u.username || x.email == u.email) <;>
      simpa [applyOp, create_user, hf] using ih
  | updateUser id upd =>
    cases hf : db.users.find? (fun x => x.id == id) <;>
      simpa [applyOp, update_user, hf] using ih
  | deleteUser id =>
    cases hf : db.users.find? (fun x => x.id == id) with
    | none => simpa [applyOp, delete_user, hf] using ih
    | some u0 =>
      intro t ht
      simp only [applyOp, delete_user, hf] at ht
      exact ih t (List.mem_of_mem_filter ht)
  | createTask tc =>
    cases hf : db.users.find? (fun x => x.id == tc.owner_id) with
    | none => simpa [applyOp, create_task, hf] using ih
    | some u0 =>
      intro t ht
      simp only [applyOp, create_task, hf] at ht
      rcases List.mem_append.mp ht with hmem | hnew
      · exact ih t hmem
      · rcases List.mem_singleton.mp hnew with rfl
        exact le_refl _
  | updateTask id upd =>
    cases hf : db.tasks.find? (fun x => x.id == id) with
    | none => simpa [applyOp, update_task, hf] using ih
    | some t0 =>
      intro t ht
      simp only [applyOp, update_task, hf] at ht
      rcases List.mem_map.mp ht with ⟨x, hx, hxe⟩
      by_cases hp : x.id = id
      · have ht0 : t0 ∈ db.tasks := List.mem_of_find?_eq_some hf
        have hcre : t0.created_at ≤ now := (hc t0 ht0).1
        rw [← hxe]
        simpa [hp, applyTaskUpdate] using hcre
      · rw [← hxe]
        simpa [hp] using ih x hx
  | deleteTask id =>
    cases hf : db.tasks.find? (fun x => x.id == id) with
    | none => simpa [applyOp, delete_task, hf] using ih
    | some t0 =>
      intro t ht
      simp only [applyOp, delete_task, hf] at ht
      exact ih t (List.mem_of_mem_filter ht)

/-- Claim C6: in every reachable store state, every stored Task satisfies
`updated_at ≥ created_at`: it holds at creation (both fields are set to the
creation time) and every successful UpdateTask resets `updated_at` to the
current time, which the clock hypothesis of each step keeps at or past the
task's creation time. -/
theorem task_timestamps_invariant (db : DB) (h : Reachable db) :
    ∀ t ∈ db.tasks, t.created_at ≤ t.updated_at := by
  induction h with
  | init => intro t ht; simp [DB.empty] at ht
  | step op now hr hc ih => exact timestamps_le_applyOp _ op now hc ih

/-- One request preserves the users-table ordering invariant: the rows in
insertion order carry strictly increasing ids, all below the
auto-increment counter. -/
theorem users_sorted_applyOp (db : DB) (op : Op) (now : Nat)
    (ih : List.Pairwise (fun a b => a.id < b.id) db.users ∧
      ∀ u ∈ db.users, u.id < db.next_user_id) :
    List.Pairwise (fun a b => a.id < b.id) (applyOp op now db).users ∧
      ∀ u ∈ (applyOp op now db).users, u.id < (applyOp op now db).next_user_id := by
  obtain ⟨hpw, hlt⟩ := ih
  cases op with
  | createUser u =>
    cases hf : db.users.find? (fun x => x.username == u.username || x.email == u.email) with
    | some y => simpa [applyOp, create_user, hf] using ⟨hpw, hlt⟩
    | none =>
      simp only [applyOp, create_user, hf]
      constructor
      · rw [List.pairwise_append]
        refine ⟨hpw, List.pairwise_singleton _ _, fun a ha b hb => ?_⟩
        rcases List.mem_singleton.mp hb with rfl
        exact hlt a ha
      · intro x hx
        rcases List.mem_append.mp hx with hmem | hnew
        · exact Nat.lt_succ_of_lt (hlt x hmem)
        · rcases List.mem_singleton.mp hnew with rfl
          exact Nat.lt_succ_self _
  | updateUser id upd =>
    cases hf : db.users.find? (fun x => x.id == id) with
    | none => simpa [applyOp, update_user, hf] using ⟨hpw, hlt⟩
    | some u0 =>
      have hid : ∀ x : User,
          (if x.id = id then applyUserUpdate upd u0 else x).id = x.id := by
        intro x
        by_cases hp : x.id = id
        · have hu0 : u0.id = id := by simpa using List.find?_some hf
          simp [hp, applyUserUpdate, hu0]
        · simp [hp]
      simp only [applyOp, update_user, hf]
      constructor
      · rw [List.pairwise_map]
        refine hpw.imp fun hab => ?_
        simpa [hid] using hab
      · intro x hx
        rcases List.mem_map.mp hx with ⟨y, hy, rfl⟩
        simpa [hid y] using hlt y hy
  | deleteUser id =>
    cases hf : db.users.find? (fun x => x.id == id) with
    | none => simpa [applyOp, delete_user, hf] using ⟨hpw, hlt⟩
    | some u0 =>
      simp only [applyOp, delete_user, hf]
      constructor
      · exact List.Pairwise.sublist (List.filter_sublist _) hpw
      · intro x hx
        exact hlt x (List.mem_of_mem_filter hx)
  | createTask tc =>
    cases hf : db.users.find? (fun x => x.id == tc.owner_id) <;>
      simpa [applyOp, create_task, hf] using ⟨hpw, hlt⟩
  | updateTask id upd =>
    cases hf : db.tasks.find? (fun x => x.id == id) <;>
      simpa [applyOp, update_task, hf] using ⟨hpw, hlt⟩
  | deleteTask id =>
    cases hf : db.tasks.find? (fun x => x.id == id) <;>
      simpa [applyOp, delete_task, hf] using ⟨hpw, hlt⟩

/-- In every reachable store, the users table in insertion order has
strictly increasing ids, all below the auto-increment counter. -/
theorem users_sorted_reachable (db : DB) (h : Reachable db) :
    List.Pairwise (fun a b => a.id < b.id) db.users ∧
      ∀ u ∈ db.users, u.id < db.next_user_id := by
  induction h with
  | init => exact ⟨List.Pairwise.nil, by simp [DB.empty]⟩
  | step op now hr hc ih => exact users_sorted_applyOp _ op now ih

/-- Claim C8: for every reachable state and all (non-negative) skip and
limit, ListUsers returns the stored users in insertion order — which, ids
being assigned by an increasing counter, is also ascending id order —
dropping the first `skip` rows and returning at most `limit` of the rest,
with no upper bound enforced on `limit`: any `limit` at least as large as
the remainder returns it whole. -/
theorem read_users_pagination (db : DB) (skip limit : Nat) (h : Reachable db) :
    read_users skip limit db = (db.users.drop skip).take limit ∧
    List.Pairwise (fun a b => a.id < b.id) (read_users skip limit db) ∧
    (read_users skip limit db).length ≤ limit ∧
    (db.users.length ≤ skip + limit → read_users skip limit db = db.users.drop skip) := by
  refine ⟨rfl, ?_, ?_, ?_⟩
  · have hpw := (users_sorted_reachable db h).1
    exact List.Pairwise.sublist
      ((List.take_sublist _ _).trans (List.drop_sublist _ _)) hpw
  · rw [read_users, List.length_take]
    exact min_le_left _ _
  · intro hlen
    have hrem : (db.users.drop skip).length ≤ limit := by
      rw [List.length_drop]; omega
    rw [read_users, List.take_of_length_le hrem]

/-- The one-user store is reachable. -/
theorem reachStep1 : Reachable dbStep1 :=
  Reachable.step opUser1 3 Reachable.init (by decide)

/-- The one-user one-task store is reachable. -/
theorem reachStep2 : Reachable dbStep2 :=
  Reachable.step opTask1 5 reachStep1 (by decide)

/-- The two-user one-task store is reachable. -/
theorem reachStep3 : Reachable dbStep3 :=
  Reachable.step opUser2 7 reachStep2 (by decide)

/-- Claim C1 witness: the cascade-delete theorem applied to the concrete
two-user store, whose task ids are distinct. -/
theorem delete_user_cascade_witness :
    ((∀ x ∈ wDB.users, x.id ≠ 1) →
      delete_user 1 wDB = .error (.notFound "User not found")) ∧
    ((∃ x ∈ wDB.users, x.id = 1) →
      ∃ db', delete_user 1 wDB = .ok db' ∧
        db'.users = wDB.users.filter (fun x => ! (x.id == 1)) ∧
        db'.tasks = wDB.tasks.filter (fun t => ! (t.owner_id == 1)) ∧
        read_user 1 db' = .error (.notFound "User not found") ∧
        ∀ t ∈ wDB.tasks, t.owner_id = 1 →
          read_task t.id db' = .error (.notFound "Task not found")) :=
  delete_user_cascade wDB 1 (by decide)

/-- Claim C3 witness: the partial-update theorem applied to the concrete
store, user 1 and task 1, at time 9. -/
theorem update_partial_semantics_witness :
    (∀ upd : UserUpdate, ∃ u' db',
      update_user 1 upd wDB = .ok (u', db') ∧
      (upd.username = none → u'.username = wAlice.username) ∧
      (∀ v, upd.username = some v → u'.username = v) ∧
      (upd.email = none → u'.email = wAlice.email) ∧
      (∀ v, upd.email = some v → u'.email = v) ∧
      (upd.full_name = none → u'.full_name = wAlice.full_name) ∧
      (∀ v, upd.full_name = some v → u'.full_name = v) ∧
      (upd.is_active = none → u'.is_active = wAlice.is_active) ∧
      (∀ v, upd.is_active = some v → u'.is_active = v)) ∧
    update_user 1 {} wDB = .ok (wAlice, wDB) ∧
    (∀ upd : TaskUpdate, ∃ t' db',
      update_task 1 upd 9 wDB = .ok (t', db') ∧
      (upd.title = none → t'.title = wTask1.title) ∧
      (∀ v, upd.title = some v → t'.title = v) ∧
      (upd.description = none → t'.description = wTask1.description) ∧
      (∀ v, upd.description = some v → t'.description = some v) ∧
      (upd.status = none → t'.status = wTask1.status) ∧
      (∀ v, upd.status = some v → t'.status = some v) ∧
      (upd.priority = none → t'.priority = wTask1.priority) ∧
      (∀ v, upd.priority = some v → t'.priority = some v) ∧
      (upd.due_date = none → t'.due_date = wTask1.due_date) ∧
      (∀ v, upd.due_date = some v → t'.due_date = some v) ∧
      t'.updated_at = 9) ∧
    update_task 1 {} 9 wDB =
      .ok ({ wTask1 with updated_at := 9 },
           { wDB with tasks := wDB.tasks.map (fun x => if x.id == 1 then { wTask1 with updated_at := 9 } else x) }) :=
  update_partial_semantics wDB 1 1 wAlice wTask1 9 rfl rfl (by decide)

/-- Claim C6 witness: the timestamp invariant evaluated on the task stored
in the reachable store `dbStep2`. -/
theorem task_timestamps_invariant_witness :
    taskStep2.created_at ≤ taskStep2.updated_at :=
  task_timestamps_invariant dbStep2 reachStep2 taskStep2 (by decide)

/-- Claim C8 witness: the pagination theorem applied to the reachable
two-user store with skip 1 and limit 10. -/
theorem read_users_pagination_witness :
    read_users 1 10 dbStep3 = (dbStep3.users.drop 1).take 10 ∧
    List.Pairwise (fun a b => a.id < b.id) (read_users 1 10 dbStep3) ∧
    (read_users 1 10 dbStep3).length ≤ 10 ∧
    (dbStep3.users.length ≤ 1 + 10 → read_users 1 10 dbStep3 = dbStep3.users.drop 1) :=
  read_users_pagination dbStep3 1 10 reachStep3

/-- Claim C10 witness: the identity-field preservation theorem applied to
the concrete store with a payload that touches every mutable field. -/
theorem update_preserves_identity_fields_witness :
    ∃ u' db1 t' db2,
      update_user 1 { username := some "bob" } wDB = .ok (u', db1) ∧
      u'.id = wAlice.id ∧ u'.created_at = wAlice.created_at ∧
      db1.users.map (fun x => (x.id, x.created_at)) =
        wDB.users.map (fun x => (x.id, x.created_at)) ∧
      update_task 1 { status := some "completed" } 9 wDB = .ok (t', db2) ∧
      t'.id = wTask1.id ∧ t'.created_at = wTask1.created_at ∧ t'.owner_id = wTask1.owner_id ∧
      db2.tasks.map (fun x => (x.id, x.created_at, x.owner_id)) =
        wDB.tasks.map (fun x => (x.id, x.created_at, x.owner_id)) :=
  update_preserves_identity_fields wDB 1 1 wAlice wTask1
    { username := some "bob" } { status := some "completed" } 9
    rfl rfl (by decide) (by decide)

end TaskMgmt
